import Mathlib

/-!
Verification development for the ndn-cpp packet data model
(`src/ndn-cpp/data.hpp`): the `Signature`, `MetaInfo` and `Data` value
types and the pluggable `WireFormat` codec boundary they delegate to.

Two embeddings are used:

* a value-level model (`Ndn`), where a byte buffer is a `List Nat` and a
  `Blob` is `Option (List Nat)` ("absent" distinct from "present and
  empty"), for the codec-facing claims; and
* a heap model (`Ndn.Mem`), where buffers live at addresses in an
  explicit heap, for the claims about aliasing versus copying of byte
  sources.

Classes that `data.hpp` uses but whose code is not part of the sources
under review (`Blob` from common.hpp, `Name::Component` from name.hpp,
`PublisherPublicKeyDigest`, `KeyLocator`, the `WireFormat` interface and
the bodies in data.cpp) are modelled from the specification; each such
definition says so in its doc comment.
-/

namespace Ndn

/-- A byte sequence. Byte values are modelled as `Nat`. -/
abbrev Bytes := List Nat

/-- Modelled from the spec: `Blob` (common.hpp, not under the reviewed
sources) is an immutable shared byte sequence where "absent" is distinct
from "present and empty". In the value model it is an optional byte
sequence. -/
abbrev Blob := Option Bytes

/-- Error raised when decoding malformed input (`DecodeError`). -/
structure DecodeError where
  msg : String
deriving DecidableEq

/-- Modelled from the spec: `PublisherPublicKeyDigest`
(publisher-public-key-digest.hpp, not under the reviewed sources) is a
name-like identifier for a signer holding one optional digest blob, with
a `clear()` that resets it. -/
structure PublisherPublicKeyDigest where
  publisherPublicKeyDigest : Blob
deriving DecidableEq

/-- Modelled from the spec: clearing a `PublisherPublicKeyDigest` resets
its digest to the absent state. -/
def PublisherPublicKeyDigest.clear (_ : PublisherPublicKeyDigest) :
    PublisherPublicKeyDigest :=
  { publisherPublicKeyDigest := none }

/-- Modelled from the spec: `KeyLocator` (key.hpp, not under the
reviewed sources) points to the key or certificate used to produce a
signature; it may be empty. Modelled as one optional key-data blob with
a `clear()` that resets it. -/
structure KeyLocator where
  keyData : Blob
deriving DecidableEq

/-- Modelled from the spec: clearing a `KeyLocator` resets it to the
empty state. -/
def KeyLocator.clear (_ : KeyLocator) : KeyLocator :=
  { keyData := none }

/-- Modelled from the spec: a `Name::Component` (name.hpp, not under the
reviewed sources) is one opaque binary component. -/
abbrev Component := Bytes

/-- Modelled from the spec: a `Name` (name.hpp, not under the reviewed
sources) is an ordered sequence of opaque binary components. -/
abbrev Name := List Component

/-- `ndn_ContentType_DATA`, the generic data content type from c/data.h
(not under the reviewed sources); content types are modelled as `Int`.
The numeric value is immaterial to the claims. -/
def ndn_ContentType_DATA : Int := 0x0C04

/-- `Signature` (data.hpp lines 20-87): digest algorithm, witness and
signature blobs, the signer's identity digest and a key locator. -/
structure Signature where
  digestAlgorithm : Blob
  witness : Blob
  signature : Blob
  publisherPublicKeyDigest : PublisherPublicKeyDigest
  keyLocator : KeyLocator
deriving DecidableEq

/-- `Signature::clear` (data.hpp lines 72-79): resets the three blobs
and clears the publisher public key digest and the key locator. -/
def Signature.clear (s : Signature) : Signature :=
  { digestAlgorithm := none
    witness := none
    signature := none
    publisherPublicKeyDigest := s.publisherPublicKeyDigest.clear
    keyLocator := s.keyLocator.clear }

/-- A default-constructed `Signature`: every member is default
constructed; modelled from the spec, all blobs and sub-objects start
absent/empty. -/
def Signature.construct : Signature :=
  { digestAlgorithm := none
    witness := none
    signature := none
    publisherPublicKeyDigest := { publisherPublicKeyDigest := none }
    keyLocator := { keyData := none } }

/-- `MetaInfo` (data.hpp lines 92-138): timestamp in milliseconds (the
C++ `double` is modelled as `Int`; only the -1 "none" sentinel matters
to the claims), content type, freshness seconds and final block ID. -/
structure MetaInfo where
  timestampMilliseconds : Int
  type : Int
  freshnessSeconds : Int
  finalBlockID : Component
deriving DecidableEq

/-- `MetaInfo::MetaInfo()` (data.hpp lines 94-98). The constructor body
assigns only `type_` and `freshnessSeconds_`; `timestampMilliseconds_`
is left uninitialized (an indeterminate value), which the model makes
explicit as the parameter `indeterminate`. `finalBlockID_` is default
constructed; modelled from the spec, a default `Name::Component` is
empty. -/
def MetaInfo.construct (indeterminate : Int) : MetaInfo :=
  { timestampMilliseconds := indeterminate
    type := ndn_ContentType_DATA
    freshnessSeconds := -1
    finalBlockID := [] }

/-- The public member functions declared in `class MetaInfo` (data.hpp
lines 92-138), transcribed from the class definition. -/
def MetaInfo.publicMembers : List String :=
  ["MetaInfo", "get", "set",
   "getTimestampMilliseconds", "getType", "getFreshnessSeconds",
   "getFinalBlockID",
   "setTimestampMilliseconds", "setType", "setFreshnessSeconds",
   "setFinalBlockID"]

/-- The public member functions declared in `class Signature` (data.hpp
lines 20-87), transcribed from the class definition. -/
def Signature.publicMembers : List String :=
  ["get", "set",
   "getDigestAlgorithm", "getWitness", "getSignature",
   "getPublisherPublicKeyDigest", "getKeyLocator",
   "setDigestAlgorithm", "setWitness", "setSignature",
   "setPublisherPublicKeyDigest", "setKeyLocator", "clear"]

/-- `Data` (data.hpp lines 140-217): signature, name, meta info and
content. -/
structure Data where
  signature : Signature
  name : Name
  metaInfo : MetaInfo
  content : Blob
deriving DecidableEq

/-- `Data::Data()` (data.hpp lines 142-144): every member is default
constructed; the fresh `MetaInfo`'s timestamp is indeterminate (see
`MetaInfo.construct`). -/
def Data.construct (indeterminate : Int) : Data :=
  { signature := Signature.construct
    name := []
    metaInfo := MetaInfo.construct indeterminate
    content := none }

/-- Modelled from the spec: the `WireFormat` codec interface
(wire-format.hpp, not under the reviewed sources). `encodeData` encodes
a `Data` object to bytes; `decodeData` must fully populate a `Data`
object from the input bytes or fail with a `DecodeError`, so it is a
function of the input bytes alone. -/
structure WireFormat where
  encodeData : Data → Bytes
  decodeData : Bytes → Except DecodeError Data

/-- Modelled from the spec: the round-trip obligation of the WireFormat
contract — `encodeData` encodes all present fields and `decodeData`
fully populates from them, so decoding an encoding restores the object. -/
def WireFormat.Lossless (wf : WireFormat) : Prop :=
  ∀ d : Data, wf.decodeData (wf.encodeData d) = Except.ok d

/-- `Data::wireEncode` (data.hpp lines 151-154): delegates to the
codec's `encodeData` on `*this`. -/
def Data.wireEncode (d : Data) (wireFormat : WireFormat) : Bytes :=
  wireFormat.encodeData d

/-- The observable effect of calling the const method
`Data::wireEncode`: the returned bytes paired with the state of the
object after the call (a const member function, it cannot mutate the
object). -/
def Data.wireEncodeCall (d : Data) (wireFormat : WireFormat) :
    Bytes × Data :=
  (d.wireEncode wireFormat, d)

/-- `Data::wireDecode(input, inputLength, wireFormat)` (data.hpp lines
155-158): delegates to the codec's `decodeData`, which fully overwrites
the object on success; the result is the fully populated object or a
`DecodeError`. The first argument is the object's prior state
(`*this`). -/
def Data.wireDecode (_ : Data) (input : Bytes) (wireFormat : WireFormat) :
    Except DecodeError Data :=
  wireFormat.decodeData input

/-- `Data::wireDecode(const std::vector&, wireFormat)` (data.hpp lines
159-162): forwards `&input[0]` and `input.size()` to the pointer
overload. `&input[0]` indexes the first element unconditionally, which
for an empty vector is undefined behavior, modelled as `none`. -/
def Data.wireDecodeVector (d : Data) (input : Bytes)
    (wireFormat : WireFormat) : Option (Except DecodeError Data) :=
  if input.isEmpty then none
  else some (d.wireDecode input wireFormat)

/-- Field-by-field equality of two `Data` objects as the spec's
round-trip property defines it: name, each metaInfo field, each
signature field, and the content bytes. -/
def Data.fieldEq (a b : Data) : Prop :=
  a.name = b.name ∧
  a.metaInfo.timestampMilliseconds = b.metaInfo.timestampMilliseconds ∧
  a.metaInfo.type = b.metaInfo.type ∧
  a.metaInfo.freshnessSeconds = b.metaInfo.freshnessSeconds ∧
  a.metaInfo.finalBlockID = b.metaInfo.finalBlockID ∧
  a.signature.digestAlgorithm = b.signature.digestAlgorithm ∧
  a.signature.witness = b.signature.witness ∧
  a.signature.signature = b.signature.signature ∧
  a.signature.publisherPublicKeyDigest = b.signature.publisherPublicKeyDigest ∧
  a.signature.keyLocator = b.signature.keyLocator ∧
  a.content = b.content

instance (a b : Data) : Decidable (a.fieldEq b) := by
  unfold Data.fieldEq; infer_instance

/-! ### A concrete codec satisfying the WireFormat contract

A simple length-prefixed serialization of `Data`, used to exhibit a
codec that provably satisfies the round-trip obligation. -/

/-- Length-prefixed encoding of a byte sequence. -/
def encBytes (bs : Bytes) : Bytes := bs.length :: bs

/-- Parse a length-prefixed byte sequence; returns the value and the
remaining input. -/
def decBytes : Bytes → Option (Bytes × Bytes)
  | [] => none
  | n :: rest => if n ≤ rest.length then some (rest.take n, rest.drop n) else none

/-- Encoding of an optional blob: tag 0 for absent, tag 1 then the
bytes. -/
def encBlob : Blob → Bytes
  | none => [0]
  | some bs => 1 :: encBytes bs

/-- Parse an optional blob. -/
def decBlob : Bytes → Option (Blob × Bytes)
  | 0 :: rest => some (none, rest)
  | 1 :: rest => (decBytes rest).map fun p => (some p.1, p.2)
  | _ => none

/-- Encoding of an integer: sign tag then magnitude. -/
def encInt (i : Int) : Bytes :=
  if i < 0 then [0, (-i).toNat] else [1, i.toNat]

/-- Parse an integer. -/
def decInt : Bytes → Option (Int × Bytes)
  | 0 :: n :: rest => some (-(n : Int), rest)
  | 1 :: n :: rest => some ((n : Int), rest)
  | _ => none

/-- Encoding of a list of name components. -/
def encComps (cs : List Component) : Bytes :=
  (cs.map encBytes).flatten

/-- Parse `n` name components. -/
def decComps : Nat → Bytes → Option (List Component × Bytes)
  | 0, rest => some ([], rest)
  | n + 1, rest =>
    match decBytes rest with
    | none => none
    | some (c, rest') =>
      match decComps n rest' with
      | none => none
      | some (cs, rest'') => some (c :: cs, rest'')

/-- Encoding of a name: component count then the components. -/
def encName (n : Name) : Bytes := n.length :: encComps n

/-- Parse a name. -/
def decName : Bytes → Option (Name × Bytes)
  | [] => none
  | n :: rest => decComps n rest

/-- Encoding of a `Signature`: its five fields in order. -/
def encSignature (s : Signature) : Bytes :=
  encBlob s.digestAlgorithm ++ encBlob s.witness ++ encBlob s.signature ++
    encBlob s.publisherPublicKeyDigest.publisherPublicKeyDigest ++
    encBlob s.keyLocator.keyData

/-- Parse a `Signature`. -/
def decSignature (bs : Bytes) : Option (Signature × Bytes) :=
  match decBlob bs with
  | none => none
  | some (da, r1) =>
    match decBlob r1 with
    | none => none
    | some (w, r2) =>
      match decBlob r2 with
      | none => none
      | some (sg, r3) =>
        match decBlob r3 with
        | none => none
        | some (pk, r4) =>
          match decBlob r4 with
          | none => none
          | some (kl, r5) =>
            some (⟨da, w, sg, ⟨pk⟩, ⟨kl⟩⟩, r5)

/-- Encoding of a `MetaInfo`: its four fields in order. -/
def encMetaInfo (m : MetaInfo) : Bytes :=
  encInt m.timestampMilliseconds ++ encInt m.type ++
    encInt m.freshnessSeconds ++ encBytes m.finalBlockID

/-- Parse a `MetaInfo`. -/
def decMetaInfo (bs : Bytes) : Option (MetaInfo × Bytes) :=
  match decInt bs with
  | none => none
  | some (ts, r1) =>
    match decInt r1 with
    | none => none
    | some (ty, r2) =>
      match decInt r2 with
      | none => none
      | some (fr, r3) =>
        match decBytes r3 with
        | none => none
        | some (fb, r4) => some (⟨ts, ty, fr, fb⟩, r4)

/-- Encoding of a whole `Data` object. -/
def encData (d : Data) : Bytes :=
  encSignature d.signature ++ encName d.name ++ encMetaInfo d.metaInfo ++
    encBlob d.content

/-- Parse a whole `Data` object, requiring the input to be consumed
exactly. -/
def decData (bs : Bytes) : Except DecodeError Data :=
  match decSignature bs with
  | none => Except.error ⟨"malformed signature"⟩
  | some (s, r1) =>
    match decName r1 with
    | none => Except.error ⟨"malformed name"⟩
    | some (n, r2) =>
      match decMetaInfo r2 with
      | none => Except.error ⟨"malformed meta info"⟩
      | some (m, r3) =>
        match decBlob r3 with
        | none => Except.error ⟨"malformed content"⟩
        | some (c, r4) =>
          if r4.isEmpty then Except.ok ⟨s, n, m, c⟩
          else Except.error ⟨"trailing bytes"⟩

/-- The concrete codec built from the serializer above. -/
def mockWireFormat : WireFormat :=
  { encodeData := encData
    decodeData := decData }

/-! ### The process-wide default WireFormat -/

/-- Modelled from the spec: the process-wide state holding the default
`WireFormat` instance, empty until first use. -/
structure WireFormatState where
  defaultWireFormat : Option WireFormat

/-- Modelled from the spec: `WireFormat::getDefaultWireFormat()`
(wire-format.hpp, not under the reviewed sources) resolves the default
codec lazily on first use — `initial` is the instance created then —
and returns the shared instance for the remainder of the process. -/
def WireFormat.getDefaultWireFormat (initial : WireFormat)
    (st : WireFormatState) : WireFormat × WireFormatState :=
  match st.defaultWireFormat with
  | some wf => (wf, st)
  | none => (initial, ⟨some initial⟩)

/-- `Data::wireEncode()` called without an explicit codec (data.hpp
line 151): the default argument evaluates
`*WireFormat::getDefaultWireFormat()`. -/
def Data.wireEncodeDefault (d : Data) (initial : WireFormat)
    (st : WireFormatState) : Bytes × WireFormatState :=
  let p := WireFormat.getDefaultWireFormat initial st
  (d.wireEncode p.1, p.2)

/-- `Data::wireDecode(input, inputLength)` called without an explicit
codec (data.hpp line 155): the default argument evaluates
`*WireFormat::getDefaultWireFormat()`. -/
def Data.wireDecodeDefault (d : Data) (input : Bytes)
    (initial : WireFormat) (st : WireFormatState) :
    Except DecodeError Data × WireFormatState :=
  let p := WireFormat.getDefaultWireFormat initial st
  (d.wireDecode input p.1, p.2)

end Ndn

namespace Ndn.Mem

/-! ### Heap model

Byte buffers live at addresses in an explicit heap; a shared pointer is
an address, and copying a byte source means allocating a fresh buffer
holding its bytes. -/

/-- A heap of byte buffers: contents per address, plus the next free
address (every address below `next` is allocated, everything at or
above it is free). -/
structure Heap where
  mem : Nat → Bytes
  next : Nat

/-- Read the buffer at an address. -/
def Heap.read (h : Heap) (a : Nat) : Bytes := h.mem a

/-- Mutate the buffer at an address in place. -/
def Heap.write (h : Heap) (a : Nat) (bs : Bytes) : Heap :=
  ⟨fun x => if x = a then bs else h.mem x, h.next⟩

/-- Allocate a fresh buffer holding `bs`; returns its address. -/
def Heap.alloc (h : Heap) (bs : Bytes) : Nat × Heap :=
  (h.next, ⟨fun x => if x = h.next then bs else h.mem x, h.next + 1⟩)

/-- `Signature` in the heap model: the three blobs are optional buffer
addresses. -/
structure Signature where
  digestAlgorithm : Option Nat
  witness : Option Nat
  signature : Option Nat

/-- `Signature::setDigestAlgorithm(const unsigned char*, unsigned int)`
(data.hpp lines 48-51): `Blob(ptr, len)` copies the source bytes into a
fresh buffer (Blob is modelled from the spec: a pointer+length source is
copied immediately). `src` is the address of the source buffer. -/
def Signature.setDigestAlgorithm (s : Signature) (h : Heap) (src : Nat) :
    Signature × Heap :=
  let p := h.alloc (h.read src)
  ({ s with digestAlgorithm := some p.1 }, p.2)

/-- `Signature::setWitness(const unsigned char*, unsigned int)`
(data.hpp lines 54-57): copies the source bytes into a fresh buffer. -/
def Signature.setWitness (s : Signature) (h : Heap) (src : Nat) :
    Signature × Heap :=
  let p := h.alloc (h.read src)
  ({ s with witness := some p.1 }, p.2)

/-- `Signature::setSignature(const unsigned char*, unsigned int)`
(data.hpp lines 60-63): copies the source bytes into a fresh buffer. -/
def Signature.setSignature (s : Signature) (h : Heap) (src : Nat) :
    Signature × Heap :=
  let p := h.alloc (h.read src)
  ({ s with signature := some p.1 }, p.2)

/-- `MetaInfo` in the heap model: only the final block ID holds a
buffer; the scalar fields are carried unchanged. -/
structure MetaInfo where
  timestampMilliseconds : Int
  type : Int
  freshnessSeconds : Int
  finalBlockID : Option Nat

/-- `MetaInfo::setFinalBlockID(const unsigned char*, unsigned int)`
(data.hpp lines 128-131): `Name::Component(ptr, len)` copies the source
bytes into a fresh buffer (Name::Component is modelled from the spec: a
pointer+length source is copied immediately). -/
def MetaInfo.setFinalBlockID (m : MetaInfo) (h : Heap) (src : Nat) :
    MetaInfo × Heap :=
  let p := h.alloc (h.read src)
  ({ m with finalBlockID := some p.1 }, p.2)

/-- The vector overloads (data.hpp lines 47, 53, 59, 127) construct a
Blob / Name::Component from a `std::vector` value, which copies the
bytes into a fresh buffer; the source here is the vector's value. -/
def Signature.setDigestAlgorithmVector (s : Signature) (h : Heap)
    (v : Bytes) : Signature × Heap :=
  let p := h.alloc v
  ({ s with digestAlgorithm := some p.1 }, p.2)

/-- Vector overload of `Signature::setWitness` (data.hpp line 53). -/
def Signature.setWitnessVector (s : Signature) (h : Heap) (v : Bytes) :
    Signature × Heap :=
  let p := h.alloc v
  ({ s with witness := some p.1 }, p.2)

/-- Vector overload of `Signature::setSignature` (data.hpp line 59). -/
def Signature.setSignatureVector (s : Signature) (h : Heap) (v : Bytes) :
    Signature × Heap :=
  let p := h.alloc v
  ({ s with signature := some p.1 }, p.2)

/-- Vector overload of `MetaInfo::setFinalBlockID` (data.hpp line
127). -/
def MetaInfo.setFinalBlockIDVector (m : MetaInfo) (h : Heap) (v : Bytes) :
    MetaInfo × Heap :=
  let p := h.alloc v
  ({ m with finalBlockID := some p.1 }, p.2)

/-- `Data` in the heap model: name components, content and signature
bits are buffer addresses. -/
structure Data where
  signature : Signature
  name : List Nat
  metaInfo : MetaInfo
  content : Option Nat

/-- `Data::setContent(const std::vector&)` (data.hpp line 198): "Set
the content to a copy of the data in the vector" — the bytes are copied
into a fresh buffer. -/
def Data.setContent (d : Data) (h : Heap) (v : Bytes) : Data × Heap :=
  let p := h.alloc v
  ({ d with content := some p.1 }, p.2)

/-- `Data::setContent(const ptr_lib::shared_ptr<std::vector>&)`
(data.hpp lines 209-210): "This takes another reference and does not
copy the bytes" — the stored content is the caller's buffer address
itself; the heap is untouched. -/
def Data.setContentShared (d : Data) (a : Nat) : Data :=
  { d with content := some a }

/-- `Data::getContent()` (data.hpp line 186) observed through the heap:
the bytes of the buffer the content blob points at. -/
def Data.getContent (h : Heap) (d : Data) : Option Bytes :=
  d.content.map h.read

/-! ### The C-struct bridge `Data::set` -/

/-- Allocate a fresh buffer for each byte sequence in the list,
returning the addresses in order. -/
def Heap.allocList (h : Heap) (bss : List Bytes) : List Nat × Heap :=
  match bss with
  | [] => ([], h)
  | bs :: rest =>
    let p := h.alloc bs
    let q := p.2.allocList rest
    (p.1 :: q.1, q.2)

/-- Allocate a fresh buffer for an optional byte sequence. -/
def Heap.allocOpt (h : Heap) (b : Option Bytes) : Option Nat × Heap :=
  match b with
  | none => (none, h)
  | some bs =>
    let p := h.alloc bs
    (some p.1, p.2)

/-- Modelled from the spec: the C `ndn_Data` struct (c/data.h, not
under the reviewed sources), the fixed-layout external representation a
codec walks. Its variable-length fields point at caller-managed
buffers, modelled as addresses; the meta-info scalars are carried by
value. The nested `ndn_Signature` is collapsed to its signature-bits
buffer. -/
structure ndn_Data where
  signatureBits : Option Nat
  nameComponents : List Nat
  timestampMilliseconds : Int
  type : Int
  freshnessSeconds : Int
  finalBlockID : Option Nat
  content : Option Nat

/-- Modelled from the spec: `Data::set(const ndn_Data&)` (declared at
data.hpp lines 171-175, body in data.cpp, not under the reviewed
sources) "clears this data object, and sets the values by copying from
the ndn_Data struct": the result is built entirely from the struct
(prior fields are discarded) and every referenced buffer is copied into
freshly allocated owned storage. -/
def Data.set (_ : Data) (h : Heap) (st : ndn_Data) : Data × Heap :=
  let pn := h.allocList (st.nameComponents.map h.read)
  let ps := pn.2.allocOpt (st.signatureBits.map h.read)
  let pf := ps.2.allocOpt (st.finalBlockID.map h.read)
  let pc := pf.2.allocOpt (st.content.map h.read)
  ({ signature :=
       { digestAlgorithm := none, witness := none, signature := ps.1 }
     name := pn.1
     metaInfo :=
       { timestampMilliseconds := st.timestampMilliseconds
         type := st.type
         freshnessSeconds := st.freshnessSeconds
         finalBlockID := pf.1 }
     content := pc.1 }, pc.2)

end Ndn.Mem

namespace Ndn

/-! ### Sample values used by the witness theorems -/

/-- A sample `Data` object with every field populated. -/
def sampleData : Data :=
  { signature :=
      { digestAlgorithm := some [1]
        witness := some [2, 3]
        signature := some [4]
        publisherPublicKeyDigest := { publisherPublicKeyDigest := some [5] }
        keyLocator := { keyData := some [6] } }
    name := [[97], [98]]
    metaInfo :=
      { timestampMilliseconds := -1
        type := ndn_ContentType_DATA
        freshnessSeconds := -1
        finalBlockID := [7] }
    content := some [1, 2, 3] }

/-- A sample heap with one allocated buffer at address 0. -/
def sampleHeap : Mem.Heap := ⟨fun _ => [7, 8], 1⟩

/-- A sample heap-model `Signature` with no fields set. -/
def sampleMemSignature : Mem.Signature := ⟨none, none, none⟩

/-- A sample heap-model `MetaInfo`. -/
def sampleMemMetaInfo : Mem.MetaInfo := ⟨-1, ndn_ContentType_DATA, -1, none⟩

/-- A sample heap-model `Data`. -/
def sampleMemData : Mem.Data := ⟨sampleMemSignature, [], sampleMemMetaInfo, none⟩

/-- A sample `ndn_Data` struct whose buffer fields reference address 0
of `sampleHeap`. -/
def sample_ndn_Data : Mem.ndn_Data :=
  { signatureBits := some 0
    nameComponents := [0]
    timestampMilliseconds := 5
    type := ndn_ContentType_DATA
    freshnessSeconds := -1
    finalBlockID := none
    content := some 0 }

end Ndn

namespace Ndn

theorem decBytes_encBytes (bs rest : Bytes) :
    decBytes (encBytes bs ++ rest) = some (bs, rest) := by
  simp [encBytes, decBytes, List.take_left, List.drop_left]

theorem decBlob_encBlob (b : Blob) (rest : Bytes) :
    decBlob (encBlob b ++ rest) = some (b, rest) := by
  cases b with
  | none => simp [encBlob, decBlob]
  | some bs => simp [encBlob, decBlob, decBytes_encBytes]

theorem decInt_encInt (i : Int) (rest : Bytes) :
    decInt (encInt i ++ rest) = some (i, rest) := by
  by_cases h : i < 0
  · have : ((-i).toNat : Int) = -i := Int.toNat_of_nonneg (by omega)
    simp [encInt, decInt, h, this]
  · have : (i.toNat : Int) = i := Int.toNat_of_nonneg (by omega)
    simp [encInt, decInt, h, this]

theorem decComps_encComps (cs : List Component) (rest : Bytes) :
    decComps cs.length (encComps cs ++ rest) = some (cs, rest) := by
  induction cs generalizing rest with
  | nil => simp [encComps, decComps]
  | cons c cs ih =>
    simp [encComps, decComps, List.append_assoc, decBytes_encBytes]
    have := ih rest
    simp [encComps] at this
    simp [this]

theorem decName_encName (n : Name) (rest : Bytes) :
    decName (encName n ++ rest) = some (n, rest) := by
  simp [encName, decName, decComps_encComps]

theorem decSignature_encSignature (s : Signature) (rest : Bytes) :
    decSignature (encSignature s ++ rest) = some (s, rest) := by
  simp [encSignature, decSignature, List.append_assoc, decBlob_encBlob]

theorem decMetaInfo_encMetaInfo (m : MetaInfo) (rest : Bytes) :
    decMetaInfo (encMetaInfo m ++ rest) = some (m, rest) := by
  simp [encMetaInfo, decMetaInfo, List.append_assoc, decInt_encInt,
    decBytes_encBytes]

theorem decData_encData (d : Data) : decData (encData d) = Except.ok d := by
  have h1 := decSignature_encSignature d.signature
    (encName d.name ++ encMetaInfo d.metaInfo ++ encBlob d.content)
  have h2 := decName_encName d.name (encMetaInfo d.metaInfo ++ encBlob d.content)
  have h3 := decMetaInfo_encMetaInfo d.metaInfo (encBlob d.content)
  have h4 := decBlob_encBlob d.content []
  simp [encData, decData, List.append_assoc] at h1 h2 h3 h4 ⊢
  simp [h1, h2, h3, h4]

/-- The concrete codec satisfies the round-trip obligation of the
WireFormat contract. -/
theorem mockWireFormat_lossless : mockWireFormat.Lossless := by
  intro d
  simpa [mockWireFormat] using decData_encData d

end Ndn

namespace Ndn.Mem

theorem Heap.write_next (h : Heap) (a : Nat) (bs : Bytes) :
    (h.write a bs).next = h.next := rfl

theorem Heap.read_write_self (h : Heap) (a : Nat) (bs : Bytes) :
    (h.write a bs).read a = bs := by simp [Heap.read, Heap.write]

theorem Heap.read_write_ne (h : Heap) (a b : Nat) (bs : Bytes)
    (hab : b ≠ a) : (h.write a bs).read b = h.read b := by
  simp [Heap.read, Heap.write, hab]

theorem Heap.alloc_next (h : Heap) (bs : Bytes) :
    (h.alloc bs).2.next = h.next + 1 := rfl

theorem Heap.alloc_fst (h : Heap) (bs : Bytes) :
    (h.alloc bs).1 = h.next := rfl

theorem Heap.read_alloc_self (h : Heap) (bs : Bytes) :
    (h.alloc bs).2.read h.next = bs := by simp [Heap.read, Heap.alloc]

theorem Heap.read_alloc_lt (h : Heap) (bs : Bytes) (a : Nat)
    (ha : a < h.next) : (h.alloc bs).2.read a = h.read a := by
  simp [Heap.read, Heap.alloc, Nat.ne_of_lt ha]

theorem Heap.allocList_next (h : Heap) (bss : List Bytes) :
    (h.allocList bss).2.next = h.next + bss.length := by
  induction bss generalizing h with
  | nil => simp [Heap.allocList]
  | cons bs rest ih =>
    simp [Heap.allocList, ih, Heap.alloc_next]
    omega

theorem Heap.allocList_read_lt (h : Heap) (bss : List Bytes) (a : Nat)
    (ha : a < h.next) : (h.allocList bss).2.read a = h.read a := by
  induction bss generalizing h with
  | nil => simp [Heap.allocList]
  | cons bs rest ih =>
    simp only [Heap.allocList]
    rw [ih (h.alloc bs).2 (by rw [Heap.alloc_next]; omega),
      Heap.read_alloc_lt h bs a ha]

theorem Heap.allocList_addr_ge (h : Heap) (bss : List Bytes) (a : Nat)
    (ha : a ∈ (h.allocList bss).1) : h.next ≤ a := by
  induction bss generalizing h with
  | nil => simp [Heap.allocList] at ha
  | cons bs rest ih =>
    simp only [Heap.allocList, List.mem_cons] at ha
    rcases ha with rfl | ha
    · simp [Heap.alloc_fst]
    · have := ih (h.alloc bs).2 ha
      rw [Heap.alloc_next] at this
      omega

theorem Heap.allocList_addr_lt (h : Heap) (bss : List Bytes) (a : Nat)
    (ha : a ∈ (h.allocList bss).1) : a < (h.allocList bss).2.next := by
  induction bss generalizing h with
  | nil => simp [Heap.allocList] at ha
  | cons bs rest ih =>
    simp only [Heap.allocList, List.mem_cons] at ha ⊢
    rcases ha with rfl | ha
    · rw [Heap.allocList_next, Heap.alloc_fst, Heap.alloc_next]
      omega
    · exact ih (h.alloc bs).2 ha

theorem Heap.allocList_reads (h : Heap) (bss : List Bytes) :
    (h.allocList bss).1.map (h.allocList bss).2.read = bss := by
  induction bss generalizing h with
  | nil => simp [Heap.allocList]
  | cons bs rest ih =>
    simp only [Heap.allocList, List.map_cons, List.cons.injEq]
    constructor
    · rw [Heap.alloc_fst,
        Heap.allocList_read_lt (h.alloc bs).2 rest h.next
          (by rw [Heap.alloc_next]; omega),
        Heap.read_alloc_self]
    · exact ih (h.alloc bs).2

theorem Heap.allocOpt_next (h : Heap) (b : Option Bytes) :
    h.next ≤ (h.allocOpt b).2.next := by
  cases b <;> simp [Heap.allocOpt, Heap.alloc_next]

theorem Heap.allocOpt_read_lt (h : Heap) (b : Option Bytes) (a : Nat)
    (ha : a < h.next) : (h.allocOpt b).2.read a = h.read a := by
  cases b with
  | none => rfl
  | some bs => exact Heap.read_alloc_lt h bs a ha

theorem Heap.allocOpt_addr_ge (h : Heap) (b : Option Bytes) (a : Nat)
    (ha : some a = (h.allocOpt b).1) : h.next ≤ a := by
  cases b with
  | none => simp [Heap.allocOpt] at ha
  | some bs =>
    simp [Heap.allocOpt, Heap.alloc_fst] at ha
    omega

theorem Heap.allocOpt_addr_lt (h : Heap) (b : Option Bytes) (a : Nat)
    (ha : some a = (h.allocOpt b).1) : a < (h.allocOpt b).2.next := by
  cases b with
  | none => simp [Heap.allocOpt] at ha
  | some bs =>
    simp [Heap.allocOpt, Heap.alloc_fst, Heap.alloc_next] at ha ⊢
    omega

theorem Heap.allocOpt_reads (h : Heap) (b : Option Bytes) :
    (h.allocOpt b).1.map (h.allocOpt b).2.read = b := by
  cases b with
  | none => rfl
  | some bs =>
    simp [Heap.allocOpt, Heap.alloc_fst, Heap.read_alloc_self]

/-- Reading a freshly allocated-and-stored buffer is unaffected by a
mutation of a previously existing buffer. -/
theorem Heap.read_alloc_write (h : Heap) (src : Nat) (bs bs' : Bytes)
    (hsrc : src < h.next) :
    ((h.alloc bs).2.write src bs').read (h.alloc bs).1 = bs := by
  rw [Heap.alloc_fst, Heap.read_write_ne _ _ _ _ (ne_of_gt hsrc),
    Heap.read_alloc_self]

/-- Reads below the allocation frontier pass through two optional
allocations. -/
theorem Heap.read_preserved_allocOpt2 (h2 : Heap) (f v : Option Bytes)
    (x : Nat) (hx : x < h2.next) :
    ((h2.allocOpt f).2.allocOpt v).2.read x = h2.read x := by
  have l : x < (h2.allocOpt f).2.next :=
    lt_of_lt_of_le hx (Heap.allocOpt_next h2 f)
  rw [Heap.allocOpt_read_lt _ _ _ l, Heap.allocOpt_read_lt _ _ _ hx]

/-- Reads below the allocation frontier pass through three optional
allocations. -/
theorem Heap.read_preserved_allocOpt3 (h1 : Heap) (s f v : Option Bytes)
    (x : Nat) (hx : x < h1.next) :
    (((h1.allocOpt s).2.allocOpt f).2.allocOpt v).2.read x = h1.read x := by
  have l : x < (h1.allocOpt s).2.next :=
    lt_of_lt_of_le hx (Heap.allocOpt_next h1 s)
  rw [Heap.read_preserved_allocOpt2 _ _ _ _ l, Heap.allocOpt_read_lt _ _ _ hx]

/-- An optional allocation still reads back its value after one further
optional allocation. -/
theorem Heap.allocOpt_reads_preserved1 (h2 : Heap) (f v : Option Bytes) :
    (h2.allocOpt f).1.map ((h2.allocOpt f).2.allocOpt v).2.read = f := by
  cases f with
  | none => rfl
  | some bs =>
    have hx : (h2.alloc bs).1 < (h2.alloc bs).2.next := by
      rw [Heap.alloc_fst, Heap.alloc_next]; omega
    show some (((h2.alloc bs).2.allocOpt v).2.read (h2.alloc bs).1) = some bs
    rw [Heap.allocOpt_read_lt _ _ _ hx, Heap.alloc_fst, Heap.read_alloc_self]

/-- An optional allocation still reads back its value after two further
optional allocations. -/
theorem Heap.allocOpt_reads_preserved2 (h1 : Heap) (s f v : Option Bytes) :
    (h1.allocOpt s).1.map
        (((h1.allocOpt s).2.allocOpt f).2.allocOpt v).2.read = s := by
  cases s with
  | none => rfl
  | some bs =>
    have hx : (h1.alloc bs).1 < (h1.alloc bs).2.next := by
      rw [Heap.alloc_fst, Heap.alloc_next]; omega
    show some ((((h1.alloc bs).2.allocOpt f).2.allocOpt v).2.read
        (h1.alloc bs).1) = some bs
    rw [Heap.read_preserved_allocOpt2 _ _ _ _ hx, Heap.alloc_fst,
      Heap.read_alloc_self]

/-- Pointwise congruence for reading through an optional address. -/
theorem option_read_congr {o : Option Nat} {f g : Nat → Bytes}
    (hc : ∀ x, o = some x → f x = g x) : o.map f = o.map g := by
  cases o with
  | none => rfl
  | some x => simp [hc x rfl]

/-- `Data::set` ignores the object's prior fields: it clears and then
rebuilds entirely from the struct. -/
theorem Data.set_prior_independent (d₁ d₂ : Data) (h : Heap)
    (st : ndn_Data) : Data.set d₁ h st = Data.set d₂ h st := rfl

/-- After `Data::set`, the stored name components read back as the
struct's component bytes at call time. -/
theorem Data.set_name_reads (d : Data) (h : Heap) (st : ndn_Data) :
    (Data.set d h st).1.name.map (Data.set d h st).2.read
      = st.nameComponents.map h.read := by
  simp only [Data.set]
  rw [List.map_congr_left (fun x hx =>
      Heap.read_preserved_allocOpt3 _ _ _ _ x
        (Heap.allocList_addr_lt _ _ x hx)),
    Heap.allocList_reads]

/-- After `Data::set`, the stored signature bits read back as the
struct's signature bytes at call time. -/
theorem Data.set_signature_reads (d : Data) (h : Heap) (st : ndn_Data) :
    (Data.set d h st).1.signature.signature.map (Data.set d h st).2.read
      = st.signatureBits.map h.read := by
  simp only [Data.set]
  exact Heap.allocOpt_reads_preserved2 _ _ _ _

/-- After `Data::set`, the stored final block ID reads back as the
struct's bytes at call time. -/
theorem Data.set_finalBlockID_reads (d : Data) (h : Heap) (st : ndn_Data) :
    (Data.set d h st).1.metaInfo.finalBlockID.map (Data.set d h st).2.read
      = st.finalBlockID.map h.read := by
  simp only [Data.set]
  exact Heap.allocOpt_reads_preserved1 _ _ _

/-- After `Data::set`, the stored content reads back as the struct's
content bytes at call time. -/
theorem Data.set_content_reads (d : Data) (h : Heap) (st : ndn_Data) :
    (Data.set d h st).1.content.map (Data.set d h st).2.read
      = st.content.map h.read := by
  simp only [Data.set]
  exact Heap.allocOpt_reads _ _

/-- Every buffer `Data::set` stores lies at or above the allocation
frontier of the heap it was called on: the copies are fresh, none of
them is a pre-existing (struct-owned) buffer. -/
theorem Data.set_addrs_fresh (d : Data) (h : Heap) (st : ndn_Data) :
    (∀ x ∈ (Data.set d h st).1.name, h.next ≤ x) ∧
    (∀ x, (Data.set d h st).1.signature.signature = some x → h.next ≤ x) ∧
    (∀ x, (Data.set d h st).1.metaInfo.finalBlockID = some x → h.next ≤ x) ∧
    (∀ x, (Data.set d h st).1.content = some x → h.next ≤ x) := by
  simp only [Data.set]
  have h1 : h.next ≤ (h.allocList (st.nameComponents.map h.read)).2.next := by
    rw [Heap.allocList_next]; omega
  have h2 : h.next ≤
      ((h.allocList (st.nameComponents.map h.read)).2.allocOpt
        (st.signatureBits.map h.read)).2.next :=
    le_trans h1 (Heap.allocOpt_next _ _)
  have h3 : h.next ≤
      (((h.allocList (st.nameComponents.map h.read)).2.allocOpt
          (st.signatureBits.map h.read)).2.allocOpt
        (st.finalBlockID.map h.read)).2.next :=
    le_trans h2 (Heap.allocOpt_next _ _)
  refine ⟨fun x hx => Heap.allocList_addr_ge _ _ x hx, fun x hx => ?_,
    fun x hx => ?_, fun x hx => ?_⟩
  · exact le_trans h1 (Heap.allocOpt_addr_ge _ _ x hx.symm)
  · exact le_trans h2 (Heap.allocOpt_addr_ge _ _ x hx.symm)
  · exact le_trans h3 (Heap.allocOpt_addr_ge _ _ x hx.symm)

/-- Mutating a pre-existing buffer does not change what the name
components stored by `Data::set` read as. -/
theorem Data.set_name_stable (d : Data) (h : Heap) (st : ndn_Data)
    (a : Nat) (bs' : Bytes) (ha : a < h.next) :
    (Data.set d h st).1.name.map ((Data.set d h st).2.write a bs').read
      = (Data.set d h st).1.name.map (Data.set d h st).2.read := by
  refine List.map_congr_left fun x hx => ?_
  have hge : h.next ≤ x := (Data.set_addrs_fresh d h st).1 x hx
  exact Heap.read_write_ne _ _ _ _ (by omega)

/-- Mutating a pre-existing buffer does not change what the signature
bits stored by `Data::set` read as. -/
theorem Data.set_signature_stable (d : Data) (h : Heap) (st : ndn_Data)
    (a : Nat) (bs' : Bytes) (ha : a < h.next) :
    (Data.set d h st).1.signature.signature.map
        ((Data.set d h st).2.write a bs').read
      = (Data.set d h st).1.signature.signature.map
          (Data.set d h st).2.read := by
  refine option_read_congr fun x hx => ?_
  have hge : h.next ≤ x := (Data.set_addrs_fresh d h st).2.1 x hx
  exact Heap.read_write_ne _ _ _ _ (by omega)

/-- Mutating a pre-existing buffer does not change what the final block
ID stored by `Data::set` reads as. -/
theorem Data.set_finalBlockID_stable (d : Data) (h : Heap)
    (st : ndn_Data) (a : Nat) (bs' : Bytes) (ha : a < h.next) :
    (Data.set d h st).1.metaInfo.finalBlockID.map
        ((Data.set d h st).2.write a bs').read
      = (Data.set d h st).1.metaInfo.finalBlockID.map
          (Data.set d h st).2.read := by
  refine option_read_congr fun x hx => ?_
  have hge : h.next ≤ x := (Data.set_addrs_fresh d h st).2.2.1 x hx
  exact Heap.read_write_ne _ _ _ _ (by omega)

/-- Mutating a pre-existing buffer does not change what the content
stored by `Data::set` reads as. -/
theorem Data.set_content_stable (d : Data) (h : Heap) (st : ndn_Data)
    (a : Nat) (bs' : Bytes) (ha : a < h.next) :
    (Data.set d h st).1.content.map ((Data.set d h st).2.write a bs').read
      = (Data.set d h st).1.content.map (Data.set d h st).2.read := by
  refine option_read_congr fun x hx => ?_
  have hge : h.next ≤ x := (Data.set_addrs_fresh d h st).2.2.2 x hx
  exact Heap.read_write_ne _ _ _ _ (by omega)

end Ndn.Mem

namespace Ndn

/-! ### The claims -/

/-- C1: for every Data object D with legal field values and every codec
C satisfying the WireFormat contract, encoding D with
`Data::wireEncode(C)` and then calling `Data::wireDecode` on a fresh
Data object with those bytes and the same codec C yields a Data object
field-equal to D. -/
theorem wireEncode_wireDecode_roundtrip (wf : WireFormat) (d : Data)
    (g : Int) (hwf : wf.Lossless) :
    ∃ d' : Data,
      (Data.construct g).wireDecode (d.wireEncode wf) wf = Except.ok d' ∧
      d'.fieldEq d := by
  refine ⟨d, ?_, ?_⟩
  · simpa [Data.wireDecode, Data.wireEncode] using hwf d
  · simp [Data.fieldEq]

/-- Witness for C1: the round-trip theorem applied to `sampleData` and
the concrete lossless codec `mockWireFormat`. -/
theorem wireEncode_wireDecode_roundtrip_witness :
    ∃ d' : Data,
      (Data.construct 0).wireDecode (sampleData.wireEncode mockWireFormat)
          mockWireFormat = Except.ok d' ∧
      d'.fieldEq sampleData :=
  wireEncode_wireDecode_roundtrip mockWireFormat sampleData 0
    mockWireFormat_lossless

/-- C2: `Data::wireDecode` either succeeds — the resulting object is
fully determined by the codec's decode of the input, independent of the
object's prior fields, so no partial decode result is observable — or
fails with a `DecodeError`. -/
theorem wireDecode_overwrites_or_DecodeError (wf : WireFormat)
    (input : Bytes) (d₁ d₂ : Data) :
    d₁.wireDecode input wf = d₂.wireDecode input wf ∧
    (∀ d' : Data, d₁.wireDecode input wf = Except.ok d' →
      wf.decodeData input = Except.ok d') ∧
    ((∃ d' : Data, d₁.wireDecode input wf = Except.ok d') ∨
      (∃ e : DecodeError, d₁.wireDecode input wf = Except.error e)) := by
  refine ⟨rfl, fun d' hd => hd, ?_⟩
  cases hd : wf.decodeData input with
  | ok d' => exact Or.inl ⟨d', hd⟩
  | error e => exact Or.inr ⟨e, hd⟩

/-- C3: the `MetaInfo` constructor assigns only `type_` and
`freshnessSeconds_`; `timestampMilliseconds_` stays indeterminate, so
when the uninitialized memory happens to hold 0 the fresh object's
timestamp is 0, not the -1 "none" sentinel the claim requires. -/
theorem fresh_metaInfo_timestamp_indeterminate :
    (MetaInfo.construct 0).type = ndn_ContentType_DATA ∧
    (MetaInfo.construct 0).freshnessSeconds = -1 ∧
    (MetaInfo.construct 0).finalBlockID = [] ∧
    (MetaInfo.construct 0).timestampMilliseconds = 0 ∧
    (MetaInfo.construct 0).timestampMilliseconds ≠ -1 := by
  decide

/-- C4 counterexample: the claim speaks of calling `clear()` on every
`MetaInfo` object, but `class MetaInfo` declares no `clear` member;
only `class Signature` does. -/
theorem metaInfo_has_no_clear :
    "clear" ∈ Signature.publicMembers ∧
    "clear" ∉ MetaInfo.publicMembers := by
  decide

/-- C4 (amended): after `Signature::clear()`, every accessor reports
the documented absent default — absent blobs, cleared publisher public
key digest and key locator — regardless of prior contents; `MetaInfo`
has no `clear()` member. -/
theorem signature_clear_all_absent (s : Signature) :
    s.clear.digestAlgorithm = none ∧
    s.clear.witness = none ∧
    s.clear.signature = none ∧
    s.clear.publisherPublicKeyDigest.publisherPublicKeyDigest = none ∧
    s.clear.keyLocator.keyData = none := by
  simp [Signature.clear, PublisherPublicKeyDigest.clear, KeyLocator.clear]

/-- C5: `Data::wireEncode` is a const call — the object after the call
is the object before it — and repeated calls on the same field values
with the same codec return the same bytes. -/
theorem wireEncode_const_and_deterministic (d : Data) (wf : WireFormat) :
    (d.wireEncodeCall wf).2 = d ∧
    ((d.wireEncodeCall wf).2.wireEncodeCall wf).1 = (d.wireEncodeCall wf).1 :=
  ⟨rfl, rfl⟩

/-- C6: the shared-pointer overload of `setContent` stores the caller's
buffer address itself (no copy, no allocation), so externally mutating
that buffer is observable through `getContent()`. -/
theorem setContentShared_aliases (h : Mem.Heap) (d : Mem.Data) (a : Nat)
    (bs : Bytes) :
    (d.setContentShared a).content = some a ∧
    Mem.Data.getContent (h.write a bs) (d.setContentShared a) = some bs := by
  refine ⟨rfl, ?_⟩
  simp [Mem.Data.getContent, Mem.Data.setContentShared,
    Mem.Heap.read_write_self]

/-- C9: `wireEncode`/`wireDecode` without an explicit codec behave
exactly as with the instance `WireFormat::getDefaultWireFormat()`
returns; once resolved, that default is the same shared instance on
every later call; an explicitly supplied codec is used for that call
alone, without touching the default. -/
theorem default_wireFormat_shared (d : Data) (input : Bytes)
    (initial wf : WireFormat) (st : WireFormatState) :
    (d.wireEncodeDefault initial st).1 =
      d.wireEncode (WireFormat.getDefaultWireFormat initial st).1 ∧
    (d.wireDecodeDefault input initial st).1 =
      d.wireDecode input (WireFormat.getDefaultWireFormat initial st).1 ∧
    WireFormat.getDefaultWireFormat initial
        (WireFormat.getDefaultWireFormat initial st).2 =
      WireFormat.getDefaultWireFormat initial st ∧
    d.wireEncode wf = wf.encodeData d ∧
    d.wireDecode input wf = wf.decodeData input := by
  refine ⟨rfl, rfl, ?_, rfl, rfl⟩
  cases hst : st.defaultWireFormat <;>
    simp [WireFormat.getDefaultWireFormat, hst]

/-- C10: on a non-empty input vector the vector overload of
`Data::wireDecode` agrees with the pointer overload applied to
`&input[0]` and `input.size()`; on an empty vector `&input[0]` indexes
a nonexistent element, so the call has no defined behavior. -/
theorem wireDecode_vector_overload (d : Data) (input : Bytes)
    (wf : WireFormat) :
    (input ≠ [] →
      d.wireDecodeVector input wf = some (d.wireDecode input wf)) ∧
    d.wireDecodeVector [] wf = none := by
  refine ⟨fun hne => ?_, rfl⟩
  simp [Data.wireDecodeVector, hne]

/-- Witness for C10: the vector overload agrees with the pointer
overload on the concrete non-empty input `[9]`. -/
theorem wireDecode_vector_overload_witness :
    sampleData.wireDecodeVector [9] mockWireFormat =
      some (sampleData.wireDecode [9] mockWireFormat) :=
  (wireDecode_vector_overload sampleData [9] mockWireFormat).1 (by decide)

/-- C7: every `Signature`/`MetaInfo` byte setter — pointer+length or
vector overload — copies the source bytes into owned storage at call
time, so mutating the source buffer afterwards leaves the stored field
value unchanged (it still reads as the bytes the source held when the
setter ran). `src` is an allocated source buffer, `bs'` the bytes later
written over it. -/
theorem setters_copy_immediately (h : Mem.Heap) (s : Mem.Signature)
    (m : Mem.MetaInfo) (src : Nat) (v bs' : Bytes) (hsrc : src < h.next) :
    (s.setDigestAlgorithm h src).1.digestAlgorithm.map
        ((s.setDigestAlgorithm h src).2.write src bs').read =
      some (h.read src) ∧
    (s.setWitness h src).1.witness.map
        ((s.setWitness h src).2.write src bs').read = some (h.read src) ∧
    (s.setSignature h src).1.signature.map
        ((s.setSignature h src).2.write src bs').read = some (h.read src) ∧
    (m.setFinalBlockID h src).1.finalBlockID.map
        ((m.setFinalBlockID h src).2.write src bs').read =
      some (h.read src) ∧
    (s.setDigestAlgorithmVector h v).1.digestAlgorithm.map
        ((s.setDigestAlgorithmVector h v).2.write src bs').read = some v ∧
    (s.setWitnessVector h v).1.witness.map
        ((s.setWitnessVector h v).2.write src bs').read = some v ∧
    (s.setSignatureVector h v).1.signature.map
        ((s.setSignatureVector h v).2.write src bs').read = some v ∧
    (m.setFinalBlockIDVector h v).1.finalBlockID.map
        ((m.setFinalBlockIDVector h v).2.write src bs').read = some v := by
  refine ⟨?_, ?_, ?_, ?_, ?_, ?_, ?_, ?_⟩ <;>
    simp [Mem.Signature.setDigestAlgorithm, Mem.Signature.setWitness,
      Mem.Signature.setSignature, Mem.MetaInfo.setFinalBlockID,
      Mem.Signature.setDigestAlgorithmVector,
      Mem.Signature.setWitnessVector, Mem.Signature.setSignatureVector,
      Mem.MetaInfo.setFinalBlockIDVector,
      Mem.Heap.read_alloc_write _ _ _ _ hsrc]

/-- Witness for C7: after `setSignature` copies the buffer at address 0
of `sampleHeap` and that buffer is overwritten with `[9]`, the stored
signature still reads as the original source bytes. -/
theorem setters_copy_immediately_witness :
    (sampleMemSignature.setSignature sampleHeap 0).1.signature.map
        ((sampleMemSignature.setSignature sampleHeap 0).2.write 0 [9]).read =
      some (sampleHeap.read 0) :=
  (setters_copy_immediately sampleHeap sampleMemSignature sampleMemMetaInfo
    0 [1] [9] (by decide)).2.2.1

/-- C8: `Data::set(dataStruct)` clears the object — the result is
independent of its prior fields — and copies every value out of the
struct into owned storage: the scalars are taken by value, every
referenced buffer reads back as the struct's bytes at call time, and
mutating any pre-existing buffer (`a < h.next`, which covers every
buffer the struct references) afterwards leaves the object's stored
bytes unchanged. -/
theorem set_clears_and_copies (h : Mem.Heap) (st : Mem.ndn_Data)
    (d₁ d₂ : Mem.Data) (a : Nat) (bs' : Bytes) (ha : a < h.next) :
    Mem.Data.set d₁ h st = Mem.Data.set d₂ h st ∧
    (Mem.Data.set d₁ h st).1.metaInfo.timestampMilliseconds =
      st.timestampMilliseconds ∧
    (Mem.Data.set d₁ h st).1.metaInfo.type = st.type ∧
    (Mem.Data.set d₁ h st).1.metaInfo.freshnessSeconds =
      st.freshnessSeconds ∧
    (Mem.Data.set d₁ h st).1.name.map (Mem.Data.set d₁ h st).2.read =
      st.nameComponents.map h.read ∧
    (Mem.Data.set d₁ h st).1.signature.signature.map
        (Mem.Data.set d₁ h st).2.read = st.signatureBits.map h.read ∧
    (Mem.Data.set d₁ h st).1.metaInfo.finalBlockID.map
        (Mem.Data.set d₁ h st).2.read = st.finalBlockID.map h.read ∧
    (Mem.Data.set d₁ h st).1.content.map (Mem.Data.set d₁ h st).2.read =
      st.content.map h.read ∧
    (Mem.Data.set d₁ h st).1.name.map
        ((Mem.Data.set d₁ h st).2.write a bs').read =
      st.nameComponents.map h.read ∧
    (Mem.Data.set d₁ h st).1.signature.signature.map
        ((Mem.Data.set d₁ h st).2.write a bs').read =
      st.signatureBits.map h.read ∧
    (Mem.Data.set d₁ h st).1.metaInfo.finalBlockID.map
        ((Mem.Data.set d₁ h st).2.write a bs').read =
      st.finalBlockID.map h.read ∧
    (Mem.Data.set d₁ h st).1.content.map
        ((Mem.Data.set d₁ h st).2.write a bs').read =
      st.content.map h.read :=
  ⟨rfl, rfl, rfl, rfl,
    Mem.Data.set_name_reads d₁ h st,
    Mem.Data.set_signature_reads d₁ h st,
    Mem.Data.set_finalBlockID_reads d₁ h st,
    Mem.Data.set_content_reads d₁ h st,
    (Mem.Data.set_name_stable d₁ h st a bs' ha).trans
      (Mem.Data.set_name_reads d₁ h st),
    (Mem.Data.set_signature_stable d₁ h st a bs' ha).trans
      (Mem.Data.set_signature_reads d₁ h st),
    (Mem.Data.set_finalBlockID_stable d₁ h st a bs' ha).trans
      (Mem.Data.set_finalBlockID_reads d₁ h st),
    (Mem.Data.set_content_stable d₁ h st a bs' ha).trans
      (Mem.Data.set_content_reads d₁ h st)⟩

/-- Witness for C8: after `set` from a struct referencing buffer 0 of
`sampleHeap`, overwriting that buffer with `[9]` leaves the object's
content reading as the struct's original bytes. -/
theorem set_clears_and_copies_witness :
    (Mem.Data.set sampleMemData sampleHeap sample_ndn_Data).1.content.map
        ((Mem.Data.set sampleMemData sampleHeap sample_ndn_Data).2.write
          0 [9]).read
      = sample_ndn_Data.content.map sampleHeap.read :=
  (set_clears_and_copies sampleHeap sample_ndn_Data sampleMemData
    sampleMemData 0 [9] (by decide)).2.2.2.2.2.2.2.2.2.2.2

end Ndn
